import Mathlib

/-!
Verification of the Telegram-Archiver repository against its specification.

The Python sources (telegram_archiver.py, telegram_monitor.py, web_frontend.py)
are shallowly embedded below: pure string/list manipulations become Lean
functions over `String`/`List Char`, the JSON config file becomes an explicit
`Option Config` value threaded through the request handlers, and the in-memory
archiving log becomes an explicit state machine.  File-system and network
effects (actually writing files, downloading media) are modelled by passing the
relevant file contents in and returning the new contents.
-/

/-! ## Generic string helpers (Python semantics) -/

/-- Python whitespace characters stripped by `str.strip()` (ASCII subset). -/
def isPySpace (c : Char) : Bool :=
  c = ' ' ∨ c = '\t' ∨ c = '\n' ∨ c = '\r' ∨ c = Char.ofNat 11 ∨ c = Char.ofNat 12

/-- Python `str.strip()` on a list of characters. -/
def pyStripL (cs : List Char) : List Char :=
  ((cs.dropWhile isPySpace).reverse.dropWhile isPySpace).reverse

/-- Python `str.strip()`. -/
def pyStrip (s : String) : String :=
  String.mk (pyStripL s.data)

/-- Character-wise lower-casing, modelling Python `str.lower()` /
`re.IGNORECASE` on the ASCII range. -/
def lowerL (cs : List Char) : List Char :=
  cs.map Char.toLower

/-- Substring test, modelling Python `needle in haystack`. -/
def isSubstr (pat : List Char) : List Char → Bool
  | [] => pat.isPrefixOf []
  | c :: rest => pat.isPrefixOf (c :: rest) || isSubstr pat rest

/-- Substring test on `String`s. -/
def strContains (hay pat : String) : Bool :=
  isSubstr pat.data hay.data

/-- `startswith` on `String`s, via the character lists. -/
def strStartsWith (s pre : String) : Bool :=
  pre.data.isPrefixOf s.data

theorem string_mk_append (a b : List Char) :
    String.mk a ++ String.mk b = String.mk (a ++ b) := rfl

theorem string_data_append (a b : String) :
    (a ++ b).data = a.data ++ b.data := by
  cases a; cases b; rfl

theorem string_append_assoc (a b c : String) :
    a ++ b ++ c = a ++ (b ++ c) := by
  cases a; cases b; cases c
  simp only [string_mk_append, List.append_assoc]

theorem string_append_empty (a : String) : a ++ "" = a := by
  cases a with
  | mk l =>
    show String.mk (l ++ []) = String.mk l
    rw [List.append_nil]

theorem string_empty_append (a : String) : "" ++ a = a := by
  cases a with
  | mk l => rfl

/-! ## `sanitize_filename` (telegram_archiver.py, lines 45-50)

`re.sub(r'[<>:"/\\|?*]', '_', text)` followed by truncation to 100
characters. -/

/-- The characters removed by the sanitizing regex character class. -/
def isInvalidFilenameChar (c : Char) : Bool :=
  c = '<' ∨ c = '>' ∨ c = ':' ∨ c = '"' ∨ c = '/' ∨ c = '\\' ∨
  c = '|' ∨ c = '?' ∨ c = '*'

/-- One step of `re.sub(r'[<>:"/\\|?*]', '_', ·)`: each character of the
class is replaced by an underscore, every other character is kept. -/
def replaceInvalidChar (c : Char) : Char :=
  if isInvalidFilenameChar c then '_' else c

/-- `TelegramArchiver.sanitize_filename` (telegram_archiver.py 45-50). -/
def sanitize_filename (text : String) : String :=
  let sanitized := String.mk (text.data.map replaceInvalidChar)
  if 100 < sanitized.data.length then String.mk (sanitized.data.take 100)
  else sanitized

/-! ## `download_media_file` filename computation (telegram_archiver.py 52-117)

Only the pure part is embedded: given the message's media description and the
message id, the name of the file the download is saved under. -/

/-- A document attribute: `some s` models an attribute carrying the declared
file name `s` (Python truthiness: the empty string also counts as absent),
`none` models an attribute without a usable `file_name`. -/
abbrev DocAttr := Option String

/-- The `document` object of a `MessageMediaDocument`. -/
structure DocumentInfo where
  attributes : List DocAttr
  mimeType : Option String
deriving DecidableEq, Repr

/-- The media attached to a message, as distinguished by the source's
`isinstance` tests.  `other` carries `type(message.media).__name__`. -/
inductive Media where
  | photo
  | document (doc : Option DocumentInfo)
  | other (typeName : String)
deriving DecidableEq, Repr

/-- The `mime_to_ext` lookup table (telegram_archiver.py 88-97). -/
def mime_to_ext : List (String × String) :=
  [("image/jpeg", ".jpg"), ("image/png", ".png"), ("image/gif", ".gif"),
   ("image/webp", ".webp"), ("video/mp4", ".mp4"), ("video/webm", ".webm"),
   ("application/pdf", ".pdf"), ("text/plain", ".txt")]

/-- `mime_to_ext.get(mime_type, '.bin')`. -/
def mimeExt (mt : String) : String :=
  (mime_to_ext.lookup mt).getD ".bin"

/-- The first attribute with a truthy `file_name` (loop with `break`,
telegram_archiver.py 80-84). -/
def firstFileName (attrs : List DocAttr) : Option String :=
  attrs.findSome? fun a =>
    match a with
    | some s => if s = "" then none else some s
    | none => none

/-- Index of the last `'.'` in a character list, if any. -/
def lastDotIdxAux : List Char → Nat → Option Nat → Option Nat
  | [], _, acc => acc
  | c :: rest, i, acc => lastDotIdxAux rest (i + 1) (if c = '.' then some i else acc)

/-- Index of the last `'.'` in a character list, if any. -/
def lastDotIdx (cs : List Char) : Option Nat :=
  lastDotIdxAux cs 0 none

/-- Split a character list on `'/'` (Python `str.split('/')`). -/
def splitOnSlash : List Char → List Char → List (List Char)
  | [], cur => [cur.reverse]
  | c :: rest, cur =>
    if c = '/' then cur.reverse :: splitOnSlash rest []
    else splitOnSlash rest (c :: cur)

/-- `pathlib.PurePath(p).name`: the last nonempty `/`-separated component. -/
def pathName (p : String) : String :=
  String.mk (((splitOnSlash p.data []).filter (fun s => s ≠ [])).getLastD [])

/-- `pathlib.PurePath(p).suffix`: the extension of the final component,
including the dot; empty when the last dot is leading or trailing. -/
def pathSuffix (p : String) : String :=
  let n := (pathName p).data
  match lastDotIdx n with
  | some i => if 0 < i ∧ i < n.length - 1 then String.mk (n.drop i) else ""
  | none => ""

/-- The file name chosen by `TelegramArchiver.download_media_file`
(telegram_archiver.py 72-101) for a message carrying `media`. -/
def download_media_file_name (media : Media) (message_id : Nat) : String :=
  let file_extension : String :=
    match media with
    | .photo => ".jpg"
    | .document none => ""
    | .document (some d) =>
      let fromAttr : String :=
        match firstFileName d.attributes with
        | some original_name => pathSuffix original_name
        | none => ""
      if fromAttr = "" then
        match d.mimeType with
        | some mt => if mt = "" then "" else mimeExt mt
        | none => ""
      else fromAttr
    | .other _ => ""
  "msg_" ++ toString message_id ++ file_extension

theorem replaceInvalidChar_ok (c : Char) :
    isInvalidFilenameChar (replaceInvalidChar c) = false := by
  unfold replaceInvalidChar
  by_cases h : isInvalidFilenameChar c = true
  · rw [if_pos h]; decide
  · rw [if_neg h]; exact Bool.not_eq_true _ |>.mp h

/-- C10: `sanitize_filename` returns at most 100 characters, none of which is
in the forbidden class `<>:"/\|?*`; its output is exactly the input with each
forbidden character replaced by `'_'`, truncated to the first 100 characters,
all other characters preserved in order. -/
theorem sanitize_filename_spec (text : String) :
    (sanitize_filename text).data.length ≤ 100 ∧
    (∀ c ∈ (sanitize_filename text).data, isInvalidFilenameChar c = false) ∧
    (sanitize_filename text).data = (text.data.map replaceInvalidChar).take 100 := by
  unfold sanitize_filename
  by_cases h : 100 < (String.mk (text.data.map replaceInvalidChar)).data.length
  · rw [if_pos h]
    refine ⟨?_, ?_, ?_⟩
    · simp [List.length_take_le 100]
    · intro c hc
      have hc' : c ∈ text.data.map replaceInvalidChar := List.mem_of_mem_take hc
      obtain ⟨x, _, rfl⟩ := List.mem_map.mp hc'
      exact replaceInvalidChar_ok x
    · rfl
  · rw [if_neg h]
    have hlen : (text.data.map replaceInvalidChar).length ≤ 100 := by
      simpa using Nat.le_of_not_lt h
    refine ⟨hlen, ?_, ?_⟩
    · intro c hc
      obtain ⟨x, _, rfl⟩ := List.mem_map.mp hc
      exact replaceInvalidChar_ok x
    · exact (List.take_of_length_le hlen).symm

/-- C1 counterexample: for a document with no declared file name and no MIME
type, the claim demands the default extension `.bin` (neither a filename
extension nor a MIME mapping is available), but the code produces `msg_7`
with no extension at all. -/
theorem download_media_file_name_no_bin_default :
    download_media_file_name (.document (some ⟨[], none⟩)) 7 ≠ "msg_7.bin" := by
  decide

/-- The extension fallback actually implemented for a document's MIME type:
the lookup table (defaulting to `.bin`) is consulted only when a nonempty
`mime_type` is present; otherwise the extension stays empty. -/
def mimeFallbackExt : Option String → String
  | some mt => if mt = "" then "" else mimeExt mt
  | none => ""

/-- C1 (amended): the downloaded file is named `msg_<id><ext>` where the
extension is `.jpg` for photos; for documents it is the declared original
filename's extension when that is nonempty, otherwise the MIME-table lookup
(defaulting to `.bin`) when a nonempty MIME type is declared, otherwise
empty; for any other media (or a document without a document body) it is
empty. -/
theorem download_media_file_name_amended (media : Media) (message_id : Nat) :
    download_media_file_name media message_id =
      "msg_" ++ toString message_id ++
        (match media with
         | .photo => ".jpg"
         | .document none => ""
         | .document (some d) =>
           (match firstFileName d.attributes with
            | some n =>
              if pathSuffix n = "" then mimeFallbackExt d.mimeType else pathSuffix n
            | none => mimeFallbackExt d.mimeType)
         | .other _ => "") := by
  cases media with
  | photo => rfl
  | other t => rfl
  | document doc =>
    cases doc with
    | none => rfl
    | some d =>
      unfold download_media_file_name mimeFallbackExt
      cases hf : firstFileName d.attributes with
      | none =>
        simp only [hf]
        cases d.mimeType <;> simp
      | some n =>
        simp only [hf]

/-! ## `format_message_as_markdown` (telegram_archiver.py 119-180) -/

/-- The sender entity of a message, as distinguished by the source's
`hasattr` tests: a user with optional first/last name, a channel-or-chat
carrying a title, or an entity with neither attribute. -/
inductive Sender where
  | user (firstName : Option String) (lastName : Option String)
  | titled (title : String)
  | anonymous
deriving DecidableEq, Repr

/-- A Telegram message, restricted to the fields the archiver reads.
`date` holds the already-formatted `strftime("%Y-%m-%d %H:%M:%S")` text. -/
structure Message where
  id : Nat
  date : String
  sender : Option Sender
  text : Option String
  media : Option Media
  forward : Bool
  replyTo : Option Nat
deriving DecidableEq, Repr

/-- The sender label computed in telegram_archiver.py 123-131. -/
def senderName (sender : Option Sender) : String :=
  match sender with
  | none => "Unknown"
  | some (.user firstName lastName) =>
    let s := match firstName with
             | some f => if f = "" then "Unknown" else f
             | none => "Unknown"
    match lastName with
    | some l => if l = "" then s else s ++ " " ++ l
    | none => s
  | some (.titled title) => title
  | some .anonymous => "Unknown"

/-- `mime_type and mime_type.startswith('image/')` (telegram_archiver.py 162). -/
def mimeStartsWithImage : Option String → Bool
  | some mt => strStartsWith mt "image/"
  | none => false

/-- `TelegramArchiver.format_message_as_markdown` (telegram_archiver.py
119-180), translated statement by statement. -/
def format_message_as_markdown (m : Message) (channel_name : String)
    (media_path : Option String) : String :=
  let timestamp := m.date
  let sender := senderName m.sender
  let md := "## Message " ++ toString m.id ++ "\n\n"
  let md := md ++ ("**Channel:** " ++ channel_name ++ "\n")
  let md := md ++ ("**Sender:** " ++ sender ++ "\n")
  let md := md ++ ("**Date:** " ++ timestamp ++ "\n")
  let md := md ++ ("**Message ID:** " ++ toString m.id ++ "\n\n")
  let md :=
    match m.text with
    | some t =>
      if t = "" then md
      else md ++ ("### Content\n\n" ++ pyStrip t ++ "\n\n")
    | none => md
  let md :=
    match m.media with
    | some .photo =>
      match media_path with
      | some p => md ++ ("**Media:** 📷 Photo\n\n![Photo](" ++ p ++ ")\n\n")
      | none => md ++ "**Media:** 📷 Photo\n\n"
    | some (.document none) => md
    | some (.document (some d)) =>
      let file_name := (firstFileName d.attributes).getD "Unknown"
      match media_path with
      | some p =>
        if mimeStartsWithImage d.mimeType then
          md ++ ("**Media:** 📷 Image Document (" ++ file_name ++ ")\n\n![" ++
                 file_name ++ "](" ++ p ++ ")\n\n")
        else
          md ++ ("**Media:** 📎 Document (" ++ file_name ++ ")\n\n[Download " ++
                 file_name ++ "](" ++ p ++ ")\n\n")
      | none => md ++ ("**Media:** 📎 Document (" ++ file_name ++ ")\n\n")
    | some (.other typeName) => md ++ ("**Media:** " ++ typeName ++ "\n\n")
    | none => md
  let md := if m.forward then md ++ "**Forwarded Message**\n\n" else md
  let md :=
    match m.replyTo with
    | some r => md ++ ("**Reply to:** Message " ++ toString r ++ "\n\n")
    | none => md
  md ++ "---\n\n"

/-- C4: `format_message_as_markdown` is a pure function of the message, the
channel name and the optional media path: two renderings with equal inputs
produce identical markdown text. -/
theorem format_message_as_markdown_deterministic
    (m₁ m₂ : Message) (c₁ c₂ : String) (p₁ p₂ : Option String)
    (hm : m₁ = m₂) (hc : c₁ = c₂) (hp : p₁ = p₂) :
    format_message_as_markdown m₁ c₁ p₁ = format_message_as_markdown m₂ c₂ p₂ := by
  subst hm; subst hc; subst hp; rfl

/-- Witness for C4 at a concrete message. -/
theorem format_message_as_markdown_deterministic_witness :
    format_message_as_markdown
        ⟨5, "2024-01-01 10:00:00", some (.user (some "Ann") none), some "hi",
          some .photo, false, none⟩ "chan" (some "media/msg_5.jpg") =
      format_message_as_markdown
        ⟨5, "2024-01-01 10:00:00", some (.user (some "Ann") none), some "hi",
          some .photo, false, none⟩ "chan" (some "media/msg_5.jpg") :=
  format_message_as_markdown_deterministic _ _ _ _ _ _ rfl rfl rfl

/-- The content section of the rendering (`### Content` block), empty when the
message has no truthy text. -/
def contentSection (m : Message) : String :=
  match m.text with
  | some t => if t = "" then "" else "### Content\n\n" ++ pyStrip t ++ "\n\n"
  | none => ""

/-- The media markup of the rendering, empty when the message has no media
(or a document media without a document body). -/
def mediaSection (m : Message) (media_path : Option String) : String :=
  match m.media with
  | some .photo =>
    match media_path with
    | some p => "**Media:** 📷 Photo\n\n![Photo](" ++ p ++ ")\n\n"
    | none => "**Media:** 📷 Photo\n\n"
  | some (.document none) => ""
  | some (.document (some d)) =>
    let file_name := (firstFileName d.attributes).getD "Unknown"
    match media_path with
    | some p =>
      if mimeStartsWithImage d.mimeType then
        "**Media:** 📷 Image Document (" ++ file_name ++ ")\n\n![" ++
          file_name ++ "](" ++ p ++ ")\n\n"
      else
        "**Media:** 📎 Document (" ++ file_name ++ ")\n\n[Download " ++
          file_name ++ "](" ++ p ++ ")\n\n"
    | none => "**Media:** 📎 Document (" ++ file_name ++ ")\n\n"
  | some (.other typeName) => "**Media:** " ++ typeName ++ "\n\n"
  | none => ""

/-- The forwarded-message annotation. -/
def forwardSection (m : Message) : String :=
  if m.forward then "**Forwarded Message**\n\n" else ""

/-- The reply annotation. -/
def replySection (m : Message) : String :=
  match m.replyTo with
  | some r => "**Reply to:** Message " ++ toString r ++ "\n\n"
  | none => ""

/-- C8: the rendered markdown is exactly the concatenation, in this fixed
order, of: the header line with the message id, the Channel field, the Sender
field, the Date field, the Message ID field, the content section (when the
message has text), the media markup (when it has media), the forwarded and
reply annotations (when present), and the `---` separator. -/
theorem format_message_as_markdown_field_order
    (m : Message) (channel_name : String) (media_path : Option String) :
    format_message_as_markdown m channel_name media_path =
      "## Message " ++ toString m.id ++ "\n\n" ++
      ("**Channel:** " ++ channel_name ++ "\n") ++
      ("**Sender:** " ++ senderName m.sender ++ "\n") ++
      ("**Date:** " ++ m.date ++ "\n") ++
      ("**Message ID:** " ++ toString m.id ++ "\n\n") ++
      contentSection m ++
      mediaSection m media_path ++
      forwardSection m ++
      replySection m ++
      "---\n\n" := by
  obtain ⟨mid, mdate, msender, mtext, mmedia, mfwd, mreply⟩ := m
  unfold format_message_as_markdown contentSection mediaSection forwardSection
    replySection
  rcases mmedia with _ | (_ | (_ | d) | tn) <;>
    rcases media_path with _ | p <;>
    rcases mtext with _ | t <;>
    rcases mfwd <;>
    rcases mreply with _ | r <;>
    first
      | (simp [string_append_empty, string_empty_append, string_append_assoc];
          done)
      | (by_cases ht : t = "" <;>
          simp [ht, string_append_empty, string_empty_append,
            string_append_assoc] <;> done)
      | (cases hb : mimeStartsWithImage d.mimeType <;>
          simp [hb, string_append_empty, string_empty_append,
            string_append_assoc] <;> done)
      | (by_cases ht : t = "" <;>
          cases hb : mimeStartsWithImage d.mimeType <;>
          simp [ht, hb, string_append_empty, string_empty_append,
            string_append_assoc])

/-! ## `save_single_message` (telegram_monitor.py 85-134)

The daily live-archive file is modelled by its contents: `none` when the file
does not exist yet, `some c` when it already holds `c`.  The function returns
the file's contents after the write. -/

/-- The header written on the first write of the day (telegram_monitor.py
121-125).  `date_str` is `datetime.now().strftime("%Y-%m-%d")` and `now_str`
the `"%Y-%m-%d %H:%M:%S"` timestamp. -/
def liveArchiveHeader (channel_name date_str now_str : String) : String :=
  "# " ++ channel_name ++ " - Live Archive\n\n" ++
  ("**Date:** " ++ date_str ++ "\n") ++
  ("**Real-time monitoring started:** " ++ now_str ++ "\n\n") ++
  "---\n\n"

/-- `TelegramMonitor.save_single_message` (telegram_monitor.py 111-129):
append the rendered message to the daily log file, writing the header first
exactly when the file does not yet exist. -/
def save_single_message (existing : Option String)
    (channel_name date_str now_str : String) (m : Message)
    (media_path : Option String) : String :=
  match existing with
  | none =>
    liveArchiveHeader channel_name date_str now_str ++
      format_message_as_markdown m channel_name media_path
  | some contents =>
    contents ++ format_message_as_markdown m channel_name media_path

/-- C7: in live mode the daily file gets the archive header exactly on its
first write (when it does not yet exist); every later write appends only the
rendered message section and preserves the existing contents verbatim. -/
theorem save_single_message_spec (channel_name date_str now_str : String)
    (m : Message) (media_path : Option String) :
    save_single_message none channel_name date_str now_str m media_path =
      liveArchiveHeader channel_name date_str now_str ++
        format_message_as_markdown m channel_name media_path ∧
    (∀ contents : String,
      save_single_message (some contents) channel_name date_str now_str
          m media_path =
        contents ++ format_message_as_markdown m channel_name media_path) :=
  ⟨rfl, fun _ => rfl⟩

/-! ## Config channel CRUD (web_frontend.py 567-709)

`config.json` is modelled by `Option Config`: `none` when the file does not
exist, `some c` for its parsed contents.  `json.dump`/`json.load` round-trip a
JSON document, so saving stores the `Config` value itself.  Besides the
`channels` list the document carries further fields (api credentials, archive
settings); they are modelled as an opaque association list `rest` that the
channel handlers never touch. -/

/-- One entry of the `channels` array of config.json. -/
structure ChannelEntry where
  identifier : String
  name : String
  enabled : Bool
deriving DecidableEq, Repr

/-- The parsed config.json document. -/
structure Config where
  channels : List ChannelEntry
  rest : List (String × String)
deriving DecidableEq, Repr

/-- `load_config` (web_frontend.py 696-702): parse the file, `{}` when it
does not exist. -/
def load_config (file : Option Config) : Config :=
  file.getD ⟨[], []⟩

/-- `save_config` (web_frontend.py 705-709): write the document out. -/
def save_config (config : Config) : Option Config :=
  some config

/-- The JSON response of a channel endpoint: `success` carries the channel
echoed back, `failure` the error message. -/
inductive ChannelApiResult where
  | success (channel : ChannelEntry)
  | failure (error : String)
deriving DecidableEq, Repr

/-- Whether an API response reports success. -/
def ChannelApiResult.isSuccess : ChannelApiResult → Bool
  | .success _ => true
  | .failure _ => false

/-- `api_add_channel` (web_frontend.py 567-604).  `identifier` and `name` are
`data.get(·, '')`; `enabled` is `data.get('enabled', True)`.  Returns the
response and the new state of config.json. -/
def api_add_channel (file : Option Config) (identifier name : String)
    (enabled : Bool) : ChannelApiResult × Option Config :=
  let identifier := pyStrip identifier
  let name := pyStrip name
  if identifier = "" ∨ name = "" then
    (.failure "Identifier and name are required", file)
  else if ¬(strStartsWith identifier "https://t.me/" ∨ strStartsWith identifier "@") then
    (.failure "Invalid Telegram channel format. Use https://t.me/channel or @channel", file)
  else
    let config := load_config file
    let channels := config.channels
    if channels.any fun c => c.identifier = identifier ∨ c.name = name then
      (.failure "Channel already exists", file)
    else
      let new_channel : ChannelEntry := ⟨identifier, name, enabled⟩
      let channels := channels ++ [new_channel]
      let config := { config with channels := channels }
      (.success new_channel, save_config config)

/-- Apply the field updates of `api_update_channel` to one entry
(web_frontend.py 618-624): only the keys present in the request body are
overwritten. -/
def applyChannelUpdate (c : ChannelEntry) (dIdentifier dName : Option String)
    (dEnabled : Option Bool) : ChannelEntry :=
  let c := match dIdentifier with
           | some s => { c with identifier := pyStrip s }
           | none => c
  let c := match dName with
           | some s => { c with name := pyStrip s }
           | none => c
  match dEnabled with
  | some b => { c with enabled := b }
  | none => c

/-- `api_update_channel` (web_frontend.py 607-632).  The three `Option`
arguments model which keys the JSON request body contains. -/
def api_update_channel (file : Option Config) (channel_index : Nat)
    (dIdentifier dName : Option String) (dEnabled : Option Bool) :
    ChannelApiResult × Option Config :=
  let config := load_config file
  let channels := config.channels
  if h : channels.length ≤ channel_index then
    (.failure "Channel not found", file)
  else
    let updated := applyChannelUpdate (channels.get ⟨channel_index, by omega⟩)
      dIdentifier dName dEnabled
    let channels := channels.set channel_index updated
    let config := { config with channels := channels }
    (.success updated, save_config config)

/-- `api_delete_channel` (web_frontend.py 635-652): `channels.pop(index)`
after a bounds check. -/
def api_delete_channel (file : Option Config) (channel_index : Nat) :
    ChannelApiResult × Option Config :=
  let config := load_config file
  let channels := config.channels
  if h : channels.length ≤ channel_index then
    (.failure "Channel not found", file)
  else
    let deleted_channel := channels.get ⟨channel_index, by omega⟩
    let channels := channels.eraseIdx channel_index
    let config := { config with channels := channels }
    (.success deleted_channel, save_config config)

/-- C5: a successful add / update-by-index / delete-by-index round-trips
through config.json: loading the config back yields exactly the modified
channel list (entry appended, entry at the index updated, entry at the index
removed), with every other config field untouched. -/
theorem config_channel_roundtrip (file : Option Config)
    (identifier name : String) (enabled : Bool) (idx : Nat)
    (dIdentifier dName : Option String) (dEnabled : Option Bool) :
    ((api_add_channel file identifier name enabled).1.isSuccess = true →
      load_config (api_add_channel file identifier name enabled).2 =
        { load_config file with
            channels := (load_config file).channels ++
              [⟨pyStrip identifier, pyStrip name, enabled⟩] }) ∧
    ((api_update_channel file idx dIdentifier dName dEnabled).1.isSuccess = true →
      ∃ e, (load_config file).channels[idx]? = some e ∧
        load_config (api_update_channel file idx dIdentifier dName dEnabled).2 =
          { load_config file with
              channels := (load_config file).channels.set idx
                (applyChannelUpdate e dIdentifier dName dEnabled) }) ∧
    ((api_delete_channel file idx).1.isSuccess = true →
      load_config (api_delete_channel file idx).2 =
        { load_config file with
            channels := (load_config file).channels.eraseIdx idx }) := by
  refine ⟨?_, ?_, ?_⟩
  · intro h
    simp only [api_add_channel] at h ⊢
    split_ifs at h ⊢ with h1 h2 h3
    all_goals first
      | (simp [ChannelApiResult.isSuccess] at h; done)
      | simp [load_config, save_config]
  · intro h
    simp only [api_update_channel] at h ⊢
    split_ifs at h ⊢ with h1
    all_goals first
      | (simp [ChannelApiResult.isSuccess] at h; done)
      | (refine ⟨(load_config file).channels.get ⟨idx, by omega⟩, ?_, ?_⟩
         · simp [List.getElem?_eq_getElem
             (show idx < (load_config file).channels.length by omega)]
         · simp [load_config, save_config])
  · intro h
    simp only [api_delete_channel] at h ⊢
    split_ifs at h ⊢ with h1
    all_goals first
      | (simp [ChannelApiResult.isSuccess] at h; done)
      | simp [load_config, save_config]

/-- Witness for C5 at a concrete config: add, update and delete all succeed
and the reloaded channel lists are the expected ones. -/
theorem config_channel_roundtrip_witness :
    load_config (api_add_channel
        (some ⟨[⟨"@a", "A", true⟩], [("k", "v")]⟩) "@b" "B" true).2 =
      ⟨[⟨"@a", "A", true⟩, ⟨"@b", "B", true⟩], [("k", "v")]⟩ ∧
    load_config (api_update_channel
        (some ⟨[⟨"@a", "A", true⟩], [("k", "v")]⟩) 0 none none (some false)).2 =
      ⟨[⟨"@a", "A", false⟩], [("k", "v")]⟩ ∧
    load_config (api_delete_channel
        (some ⟨[⟨"@a", "A", true⟩], [("k", "v")]⟩) 0).2 =
      ⟨[], [("k", "v")]⟩ := by
  refine ⟨?_, ?_, ?_⟩
  · have h := (config_channel_roundtrip
      (some ⟨[⟨"@a", "A", true⟩], [("k", "v")]⟩) "@b" "B" true 0
      none none none).1 (by decide)
    exact h.trans (by decide)
  · obtain ⟨e, he, h⟩ := (config_channel_roundtrip
      (some ⟨[⟨"@a", "A", true⟩], [("k", "v")]⟩) "" "" true 0
      none none (some false)).2.1 (by decide)
    have hc : (load_config
        (some ⟨[⟨"@a", "A", true⟩], [("k", "v")]⟩)).channels[0]? =
        some ⟨"@a", "A", true⟩ := by decide
    rw [hc] at he
    injection he with he2
    rw [← he2] at h
    exact h.trans (by decide)
  · have h := (config_channel_roundtrip
      (some ⟨[⟨"@a", "A", true⟩], [("k", "v")]⟩) "" "" true 0
      none none none).2.2 (by decide)
    exact h.trans (by decide)

/-- C6: deleting a channel at a valid index removes exactly the indexed entry,
shifting every later entry one index down; an out-of-range index fails with an
error and leaves the stored channel list untouched. -/
theorem api_delete_channel_spec (file : Option Config) (i : Nat) :
    (∀ h : i < (load_config file).channels.length,
      (api_delete_channel file i).1 =
        .success ((load_config file).channels.get ⟨i, h⟩) ∧
      (load_config (api_delete_channel file i).2).channels =
        (load_config file).channels.eraseIdx i ∧
      (load_config (api_delete_channel file i).2).channels.length =
        (load_config file).channels.length - 1 ∧
      (∀ j, i < j →
        (load_config (api_delete_channel file i).2).channels[j - 1]? =
          (load_config file).channels[j]?)) ∧
    ((load_config file).channels.length ≤ i →
      (api_delete_channel file i).1 = .failure "Channel not found" ∧
      (api_delete_channel file i).2 = file) := by
  constructor
  · intro h
    have hcomp : ¬ (load_config file).channels.length ≤ i := by omega
    refine ⟨?_, ?_, ?_, ?_⟩
    · simp only [api_delete_channel]
      rw [dif_neg hcomp]
    · simp only [api_delete_channel]
      rw [dif_neg hcomp]
      simp [load_config, save_config]
    · simp only [api_delete_channel]
      rw [dif_neg hcomp]
      simp only [load_config, save_config, Option.getD_some]
      rw [List.length_eraseIdx]
      simp only [load_config] at h
      simp [h]
    · intro j hj
      simp only [api_delete_channel]
      rw [dif_neg hcomp]
      simp only [load_config, save_config, Option.getD_some]
      rw [List.getElem?_eraseIdx]
      rw [if_neg (by omega)]
      congr 1
      omega
  · intro h
    simp only [api_delete_channel]
    rw [dif_pos h]
    exact ⟨rfl, rfl⟩

/-- Witness for C6: deleting index 1 of a two-entry list keeps only the first
entry, and deleting index 2 fails and leaves the file unchanged. -/
theorem api_delete_channel_spec_witness :
    (load_config (api_delete_channel
        (some ⟨[⟨"@a", "A", true⟩, ⟨"@b", "B", false⟩], []⟩) 1).2).channels =
      [⟨"@a", "A", true⟩] ∧
    (api_delete_channel
        (some ⟨[⟨"@a", "A", true⟩, ⟨"@b", "B", false⟩], []⟩) 2).2 =
      some ⟨[⟨"@a", "A", true⟩, ⟨"@b", "B", false⟩], []⟩ := by
  constructor
  · have h := ((api_delete_channel_spec
      (some ⟨[⟨"@a", "A", true⟩, ⟨"@b", "B", false⟩], []⟩) 1).1
      (by decide)).2.1
    exact h.trans (by decide)
  · exact ((api_delete_channel_spec
      (some ⟨[⟨"@a", "A", true⟩, ⟨"@b", "B", false⟩], []⟩) 2).2
      (by decide)).2

/-! ## `search_messages` (web_frontend.py 116-203)

The filesystem tree is passed in explicitly: an archive directory is a list of
channel directories, each a channel name together with its markdown files.
Regular-expression operations of the source are implemented for the concrete
patterns used: the `^## Message \d+` split, the field-capture searches, the
lazy content capture, and the case-insensitive highlight substitution.
Recursions over text are structural on an explicit character budget
(initialised to the text length, which every run stays within), so that all
definitions compute by kernel reduction. -/

/-- A markdown file of a channel directory. -/
structure MdFile where
  name : String
  content : String
deriving DecidableEq, Repr

/-- The literal part of the message-header pattern `^## Message \d+`. -/
def headerMarker : List Char := "## Message ".data

/-- Does the first character satisfy `p`?  (Used for the `+`-quantified
captures, which need at least one character.) -/
def firstSat (p : Char → Bool) : List Char → Bool
  | [] => false
  | c :: _ => p c

/-- `re.split(r'^## Message \d+', ·, flags=re.MULTILINE)`: scan left to
right; at the start of a line a marker followed by at least one digit closes
the current segment and is consumed together with its maximal digit run.
`atStart` records whether the position is a line start. -/
def splitMsgsAux : Nat → List Char → Bool → List Char → List (List Char)
  | 0, cs, _, cur => [cur.reverse ++ cs]
  | fuel + 1, cs, atStart, cur =>
    match cs with
    | [] => [cur.reverse]
    | c :: rest =>
      if atStart && headerMarker.isPrefixOf (c :: rest) &&
          firstSat Char.isDigit ((c :: rest).drop headerMarker.length) then
        cur.reverse ::
          splitMsgsAux fuel (((c :: rest).drop headerMarker.length).dropWhile Char.isDigit)
            false []
      else
        splitMsgsAux fuel rest (c == '\n') (c :: cur)

/-- Split a file's contents into the per-message segments, dropping the text
before the first header (`[1:]` in web_frontend.py 142). -/
def splitMessages (content : String) : List String :=
  ((splitMsgsAux content.data.length content.data true []).drop 1).map String.mk

/-- `re.search(lit ++ capture⁺, ·)` for a literal followed by a nonempty
maximal capture of characters satisfying `p`: the leftmost position where the
literal is followed by at least one `p`-character wins. -/
def findCapture (lit : List Char) (p : Char → Bool) : List Char → Option (List Char)
  | [] => none
  | c :: rest =>
    if lit.isPrefixOf (c :: rest) && firstSat p ((c :: rest).drop lit.length) then
      some (((c :: rest).drop lit.length).takeWhile p)
    else findCapture lit p rest

/-- The remainder after the leftmost occurrence of a (nonempty) literal. -/
def findAfterLit (lit : List Char) : List Char → Option (List Char)
  | [] => none
  | c :: rest =>
    if lit.isPrefixOf (c :: rest) then some ((c :: rest).drop lit.length)
    else findAfterLit lit rest

/-- The lazy capture `(.*?)(?=\n\n\*\*|$)` with `re.DOTALL`: the shortest
prefix whose end is followed by `"\n\n**"`, is the end of the text, or is a
final trailing newline. -/
def lazyCap : List Char → List Char
  | [] => []
  | c :: rest =>
    if "\n\n**".data.isPrefixOf (c :: rest) || (c == '\n' && rest.isEmpty) then []
    else c :: lazyCap rest

/-- `re.sub(f'({re.escape(query)})', r'<mark>\1</mark>', ·, flags=re.IGNORECASE)`
(web_frontend.py 166-171): scan left to right, wrap each leftmost
case-insensitive occurrence of the query in mark tags (keeping the original
characters), and continue after it.  The fuel argument bounds the scan by the
text length; both call sites of `search_messages` guarantee a nonempty
query, for which each step consumes at least one character. -/
def subMark (q : List Char) : Nat → List Char → List Char
  | 0, s => s
  | fuel + 1, s =>
    if !q.isEmpty && (lowerL q).isPrefixOf (lowerL s) then
      "<mark>".data ++ s.take q.length ++ "</mark>".data ++
        subMark q fuel (s.drop q.length)
    else
      match s with
      | [] => []
      | c :: rest => c :: subMark q fuel rest

/-- The highlighted content computed in web_frontend.py 166-171. -/
def highlightQuery (query content_text : String) : String :=
  String.mk (subMark query.data content_text.data.length content_text.data)

/-- One search hit (the dict built in web_frontend.py 184-194). -/
structure SearchResult where
  channel : String
  message_id : String
  date : String
  sender : String
  content : String
  full_content : String
  has_media : Bool
  media_type : String
  file : String
deriving DecidableEq, Repr

/-- Build the result dict for one matching message segment
(web_frontend.py 146-194); `i` is the segment's index in the file. -/
def mkSearchResult (channel_name file_name query : String) (i : Nat)
    (message : String) : SearchResult :=
  let m := message.data
  let msg_id :=
    match findCapture "**Message ID:** ".data Char.isDigit m with
    | some ds => String.mk ds
    | none => "msg_" ++ toString i
  let date :=
    match findCapture "**Date:** ".data (fun c => !(c == '\n')) m with
    | some ds => String.mk ds
    | none => "Unknown"
  let sender :=
    match findCapture "**Sender:** ".data (fun c => !(c == '\n')) m with
    | some ds => String.mk ds
    | none => "Unknown"
  let content_text :=
    match findAfterLit "### Content\n\n".data m with
    | some rest => String.mk (pyStripL (lazyCap rest))
    | none => ""
  let highlighted := highlightQuery query content_text
  let content :=
    if 300 < highlighted.data.length then String.mk (highlighted.data.take 300) ++ "..."
    else highlighted
  let has_media := isSubstr "**Media:**".data m
  let media_type :=
    if has_media then
      if isSubstr "📷 Photo".data m then "Photo"
      else if isSubstr "📎 Document".data m then "Document"
      else if isSubstr "🎬 Video".data m then "Video"
      else ""
    else ""
  ⟨channel_name, msg_id, date, sender, content, content_text, has_media,
    media_type, file_name⟩

/-- The message loop of `search_messages` (web_frontend.py 144-197): append a
result for each segment containing the query (case-insensitively) and return
early — flag `true` — the moment `len(results) >= limit`. -/
def searchMsgsLoop (query : String) (limit : Int) (channel_name file_name : String) :
    List String → Nat → List SearchResult → List SearchResult × Bool
  | [], _, results => (results, false)
  | message :: rest, i, results =>
    if isSubstr (lowerL query.data) (lowerL message.data) then
      let results := results ++ [mkSearchResult channel_name file_name query i message]
      if limit ≤ (results.length : Int) then (results, true)
      else searchMsgsLoop query limit channel_name file_name rest (i + 1) results
    else searchMsgsLoop query limit channel_name file_name rest (i + 1) results

/-- The per-file loop of `search_messages` (web_frontend.py 136-201). -/
def searchFilesLoop (query : String) (limit : Int) (channel_name : String) :
    List MdFile → List SearchResult → List SearchResult × Bool
  | [], results => (results, false)
  | f :: rest, results =>
    let r := searchMsgsLoop query limit channel_name f.name
      (splitMessages f.content) 0 results
    if r.2 then r
    else searchFilesLoop query limit channel_name rest r.1

/-- The per-channel loop of `search_messages` (web_frontend.py 135-201). -/
def searchChannelsLoop (query : String) (limit : Int) :
    List (String × List MdFile) → List SearchResult → List SearchResult × Bool
  | [], results => (results, false)
  | ch :: rest, results =>
    let r := searchFilesLoop query limit ch.1 ch.2 results
    if r.2 then r
    else searchChannelsLoop query limit rest r.1

/-- The `channels_to_search` selection (web_frontend.py 121-133): with a
filter, the channel directory of that name from each archive directory; with
no filter, every channel directory except `media`. -/
def channelsToSearch (archive_dirs : List (List (String × List MdFile)))
    (channel_filter : Option String) : List (String × List MdFile) :=
  match channel_filter with
  | some name => archive_dirs.filterMap fun d => d.find? fun c => c.1 = name
  | none => archive_dirs.flatten.filter fun c => ¬ c.1 = "media"

/-- `ArchiveManager.search_messages` (web_frontend.py 116-203), over the given
archive tree. -/
def search_messages (archive_dirs : List (List (String × List MdFile)))
    (query : String) (channel_filter : Option String) (limit : Int) :
    List SearchResult :=
  (searchChannelsLoop query limit (channelsToSearch archive_dirs channel_filter) []).1

/-- C2 counterexample: with requested limit 0 the scan still returns the first
hit, because the cap is checked only after appending a result — one result is
more than the requested zero. -/
theorem search_messages_limit_cex :
    ¬ ((search_messages [[("c", [⟨"f.md", "## Message 1\nhello"⟩])]]
        "hello" none 0).length ≤ 0) := by
  decide

/-- Loop invariant of the search: either the collected results are still
strictly below the limit, or nothing was collected yet and the limit is
non-positive (so the very first hit will be returned alone). -/
def SearchInv (limit : Int) (results : List SearchResult) : Prop :=
  ((results.length : Int) < limit) ∨ (results = [] ∧ limit ≤ 0)

theorem searchMsgsLoop_bound (query : String) (limit : Int)
    (channel_name file_name : String) (msgs : List String) :
    ∀ (i : Nat) (results : List SearchResult), SearchInv limit results →
      ((searchMsgsLoop query limit channel_name file_name msgs i results).1.length : Int)
          ≤ max limit 1 ∧
      ((searchMsgsLoop query limit channel_name file_name msgs i results).2 = false →
        SearchInv limit
          (searchMsgsLoop query limit channel_name file_name msgs i results).1) := by
  induction msgs with
  | nil =>
    intro i results hinv
    simp only [searchMsgsLoop]
    refine ⟨?_, fun _ => hinv⟩
    have h1 := le_max_left limit 1
    have h2 := le_max_right limit 1
    rcases hinv with h | ⟨rfl, h⟩
    · omega
    · simp
  | cons m rest ih =>
    intro i results hinv
    simp only [searchMsgsLoop]
    by_cases hm : isSubstr (lowerL query.data) (lowerL m.data) = true
    · rw [if_pos hm]
      by_cases hl : limit ≤
          (((results ++ [mkSearchResult channel_name file_name query i m]).length : Int))
      · rw [if_pos hl]
        have h1 := le_max_left limit 1
        have h2 := le_max_right limit 1
        refine ⟨?_, ?_⟩
        · simp only [List.length_append, List.length_singleton]
          rcases hinv with h | ⟨rfl, h⟩
          · simp only [List.length_append, List.length_singleton] at hl
            push_cast
            omega
          · simp
        · intro hfalse
          simp at hfalse
      · rw [if_neg hl]
        refine ih (i + 1) _ (Or.inl ?_)
        simp only [List.length_append, List.length_singleton] at hl ⊢
        push_cast at hl ⊢
        omega
    · rw [if_neg hm]
      exact ih (i + 1) results hinv

theorem searchFilesLoop_bound (query : String) (limit : Int)
    (channel_name : String) (files : List MdFile) :
    ∀ (results : List SearchResult), SearchInv limit results →
      ((searchFilesLoop query limit channel_name files results).1.length : Int)
          ≤ max limit 1 ∧
      ((searchFilesLoop query limit channel_name files results).2 = false →
        SearchInv limit (searchFilesLoop query limit channel_name files results).1) := by
  induction files with
  | nil =>
    intro results hinv
    simp only [searchFilesLoop]
    refine ⟨?_, fun _ => hinv⟩
    have h1 := le_max_left limit 1
    have h2 := le_max_right limit 1
    rcases hinv with h | ⟨rfl, h⟩
    · omega
    · simp
  | cons f rest ih =>
    intro results hinv
    simp only [searchFilesLoop]
    have hmsgs := searchMsgsLoop_bound query limit channel_name f.name
      (splitMessages f.content) 0 results hinv
    by_cases hstop : (searchMsgsLoop query limit channel_name f.name
        (splitMessages f.content) 0 results).2 = true
    · rw [if_pos hstop]
      refine ⟨hmsgs.1, ?_⟩
      intro hfalse
      rw [hstop] at hfalse
      simp at hfalse
    · rw [if_neg hstop]
      exact ih _ (hmsgs.2 (Bool.not_eq_true _ |>.mp hstop))

theorem searchChannelsLoop_bound (query : String) (limit : Int)
    (chans : List (String × List MdFile)) :
    ∀ (results : List SearchResult), SearchInv limit results →
      ((searchChannelsLoop query limit chans results).1.length : Int) ≤ max limit 1 ∧
      ((searchChannelsLoop query limit chans results).2 = false →
        SearchInv limit (searchChannelsLoop query limit chans results).1) := by
  induction chans with
  | nil =>
    intro results hinv
    simp only [searchChannelsLoop]
    refine ⟨?_, fun _ => hinv⟩
    have h1 := le_max_left limit 1
    have h2 := le_max_right limit 1
    rcases hinv with h | ⟨rfl, h⟩
    · omega
    · simp
  | cons ch rest ih =>
    intro results hinv
    simp only [searchChannelsLoop]
    have hfiles := searchFilesLoop_bound query limit ch.1 ch.2 results hinv
    by_cases hstop : (searchFilesLoop query limit ch.1 ch.2 results).2 = true
    · rw [if_pos hstop]
      refine ⟨hfiles.1, ?_⟩
      intro hfalse
      rw [hstop] at hfalse
      simp at hfalse
    · rw [if_neg hstop]
      exact ih _ (hfiles.2 (Bool.not_eq_true _ |>.mp hstop))

/-- C2 (amended): for every query, channel filter and requested limit N, the
search returns at most `max N 1` results — at most N when N ≥ 1, with the scan
short-circuiting the moment the cap is reached; when N ≤ 0 the scan still
stops at (and returns) the first hit, because the cap test runs only after a
result is appended. -/
theorem search_messages_at_most_limit
    (archive_dirs : List (List (String × List MdFile))) (query : String)
    (channel_filter : Option String) (limit : Int) :
    ((search_messages archive_dirs query channel_filter limit).length : Int)
      ≤ max limit 1 := by
  have hinv : SearchInv limit [] := by
    rcases le_or_lt limit 0 with h | h
    · exact Or.inr ⟨rfl, h⟩
    · exact Or.inl (by simpa using h)
  exact (searchChannelsLoop_bound query limit
    (channelsToSearch archive_dirs channel_filter) [] hinv).1

/-- A piece of the highlighted output: a run of untouched characters
(`marked = false`) or one wrapped match (`marked = true`). -/
structure MarkPiece where
  marked : Bool
  text : List Char
deriving DecidableEq, Repr

/-- Render one piece: a match is wrapped in mark tags, anything else is kept
verbatim. -/
def renderPiece (p : MarkPiece) : List Char :=
  if p.marked then "<mark>".data ++ p.text ++ "</mark>".data else p.text

/-- Concatenate the rendered pieces. -/
def renderPieces (ps : List MarkPiece) : List Char :=
  (ps.map renderPiece).flatten

/-- Concatenate the pieces' raw text (i.e. strip the inserted tags). -/
def origPieces (ps : List MarkPiece) : List Char :=
  (ps.map MarkPiece.text).flatten

/-- The decomposition of the text scanned by `subMark` into matched and
unmatched pieces. -/
def markPieces (q : List Char) : Nat → List Char → List MarkPiece
  | 0, s => [⟨false, s⟩]
  | fuel + 1, s =>
    if !q.isEmpty && (lowerL q).isPrefixOf (lowerL s) then
      ⟨true, s.take q.length⟩ :: markPieces q fuel (s.drop q.length)
    else
      match s with
      | [] => []
      | c :: rest => ⟨false, [c]⟩ :: markPieces q fuel rest

theorem subMark_eq_renderPieces (q : List Char) :
    ∀ (fuel : Nat) (s : List Char),
      subMark q fuel s = renderPieces (markPieces q fuel s) := by
  intro fuel
  induction fuel with
  | zero =>
    intro s
    simp [subMark, markPieces, renderPieces, renderPiece]
  | succ fuel ih =>
    intro s
    simp only [subMark, markPieces]
    by_cases hq : (!q.isEmpty && (lowerL q).isPrefixOf (lowerL s)) = true
    · rw [if_pos hq, if_pos hq]
      simp [renderPieces, renderPiece, ih]
    · rw [if_neg hq, if_neg hq]
      cases s with
      | nil => simp [renderPieces]
      | cons c rest => simp [renderPieces, renderPiece, ih]

theorem origPieces_markPieces (q : List Char) :
    ∀ (fuel : Nat) (s : List Char), origPieces (markPieces q fuel s) = s := by
  intro fuel
  induction fuel with
  | zero =>
    intro s
    simp [markPieces, origPieces]
  | succ fuel ih =>
    intro s
    simp only [markPieces]
    by_cases hq : (!q.isEmpty && (lowerL q).isPrefixOf (lowerL s)) = true
    · rw [if_pos hq]
      simp [origPieces] at ih ⊢
      rw [ih]
      exact List.take_append_drop _ s
    · rw [if_neg hq]
      cases s with
      | nil => simp [origPieces]
      | cons c rest =>
        simp [origPieces] at ih ⊢
        rw [ih]

theorem markPieces_marked_eq_query (q : List Char) :
    ∀ (fuel : Nat) (s : List Char), ∀ p ∈ markPieces q fuel s,
      p.marked = true → lowerL p.text = lowerL q := by
  intro fuel
  induction fuel with
  | zero =>
    intro s p hp hm
    simp [markPieces] at hp
    rw [hp] at hm
    simp at hm
  | succ fuel ih =>
    intro s p hp hm
    simp only [markPieces] at hp
    by_cases hq : (!q.isEmpty && (lowerL q).isPrefixOf (lowerL s)) = true
    · rw [if_pos hq] at hp
      rcases List.mem_cons.mp hp with rfl | hp'
      · have hpre : lowerL q <+: lowerL s :=
          List.isPrefixOf_iff_prefix.mp (Bool.and_elim_right hq)
        obtain ⟨t, ht⟩ := hpre
        show lowerL (s.take q.length) = lowerL q
        have hlen : q.length = (lowerL q).length := (List.length_map _ _).symm
        calc lowerL (s.take q.length) = (lowerL s).take q.length := by
              simp [lowerL, List.map_take]
          _ = ((lowerL q) ++ t).take (lowerL q).length := by rw [← ht, hlen]
          _ = lowerL q := List.take_left _ _
      · exact ih _ p hp' hm
    · rw [if_neg hq] at hp
      cases s with
      | nil => simp at hp
      | cons c rest =>
        rcases List.mem_cons.mp hp with rfl | hp'
        · simp at hm
        · exact ih _ p hp' hm

/-- C3: the highlighted content computed by `search_messages` decomposes into
pieces such that (a) stripping the inserted `<mark>`/`</mark>` tags recovers
the original content text exactly and (b) every wrapped piece equals the
query up to character case — nothing else is changed.  Both call sites pass a
nonempty query (`api_search` rejects an empty `q`, the search page only calls
with a truthy query). -/
theorem search_highlight_spec (query content_text : String) (_hq : query ≠ "") :
    ∃ ps : List MarkPiece,
      (highlightQuery query content_text).data = renderPieces ps ∧
      origPieces ps = content_text.data ∧
      ∀ p ∈ ps, p.marked = true → lowerL p.text = lowerL query.data := by
  refine ⟨markPieces query.data content_text.data.length content_text.data,
    ?_, ?_, ?_⟩
  · exact subMark_eq_renderPieces query.data _ _
  · exact origPieces_markPieces query.data _ _
  · exact markPieces_marked_eq_query query.data _ _

/-- Witness for C3 on a concrete query and content. -/
theorem search_highlight_spec_witness :
    ∃ ps : List MarkPiece,
      (highlightQuery "b" "aBcb").data = renderPieces ps ∧
      origPieces ps = "aBcb".data ∧
      ∀ p ∈ ps, p.marked = true → lowerL p.text = lowerL "b".data :=
  search_highlight_spec "b" "aBcb" (by decide)

/-! ## The archiving status log (web_frontend.py 252-302, 308-406)

The `archiving_status` dict's `running` flag and `logs` list form the state;
the operations that touch the log are starting the archiver (the reset in
`start_archiving` plus the three fixed lines the worker thread logs before
its read loop), one iteration of the worker's output-reading loop, and
`stop_archiving`. -/

/-- The log reset performed by `start_archiving` (web_frontend.py 266). -/
def startResetLogs : List String := ["🚀 Starting archiving process..."]

/-- The three lines `_run_archiving_process` appends before its read loop
(web_frontend.py 319, 329, 342). -/
def threadInitLogs (script : String) (maxMb : Nat) (skip : Bool) : List String :=
  ["📁 Using archiver script: " ++ script,
   "⚙️ Max file size: " ++ toString maxMb ++ "MB, Skip large files: " ++
     (if skip then "True" else "False"),
   "🔄 Archiving process started"]

/-- The appends performed for one nonempty output line (web_frontend.py
351-370): the line itself, plus a decorated copy for the `Skipping large
file` / `Downloaded:` branches (the earlier `Processing channel:` / `Total
channels:` branches update counters only). -/
def appendOutputLine (logs : List String) (line : String) : List String :=
  let logs := logs ++ [line]
  if strContains line "Processing channel:" then logs
  else if strContains line "Total channels:" then logs
  else if strContains line "Skipping large file" then logs ++ ["⏭️ " ++ line]
  else if strContains line "Downloaded:" then logs ++ ["📥 " ++ line]
  else logs

/-- One iteration of the output-reading loop (web_frontend.py 347-381): strip
the raw line, skip it when empty, otherwise append and keep only the last 100
entries when the list exceeds 100. -/
def processOutputLine (logs : List String) (raw : String) : List String :=
  let line := pyStrip raw
  if line = "" then logs
  else
    let logs := appendOutputLine logs line
    if 100 < logs.length then logs.drop (logs.length - 100) else logs

/-- The operations of the claim that append to the archiving logs. -/
inductive LogOp where
  | start (script : String) (maxMb : Nat) (skip : Bool)
  | out (raw : String)
  | stop
deriving DecidableEq, Repr

/-- The `running` flag and `logs` list of `archiving_status`. -/
structure LogState where
  running : Bool
  logs : List String
deriving DecidableEq, Repr

/-- One operation against the archiving status: `start_archiving` refuses
when already running and otherwise resets the log (web_frontend.py 254-266)
before the worker logs its fixed preamble; an output line is processed only
while the loop runs (web_frontend.py 345); `stop_archiving` refuses when not
running and otherwise appends its message untrimmed (web_frontend.py
286-297). -/
def logStep (st : LogState) : LogOp → LogState
  | .start script maxMb skip =>
    if st.running then st
    else ⟨true, startResetLogs ++ threadInitLogs script maxMb skip⟩
  | .out raw =>
    if st.running then ⟨true, processOutputLine st.logs raw⟩ else st
  | .stop =>
    if st.running then ⟨false, st.logs ++ ["🛑 Archiving stopped by user"]⟩ else st

/-- The initial `archiving_status` (web_frontend.py 30-39). -/
def initLogState : LogState := ⟨false, []⟩

/-- Run a sequence of log operations from the initial state. -/
def runLogOps (ops : List LogOp) : LogState :=
  ops.foldl logStep initLogState

set_option maxRecDepth 4000 in
/-- C9 counterexample: a start, 96 child-output lines and a stop leave 101
entries in the log — the stop append is not trimmed, so the buffer is not
bounded by 100. -/
theorem archiving_logs_cex :
    ¬ ((runLogOps ([.start "run_archiver.py" 50 true] ++
          List.replicate 96 (.out "x") ++ [.stop])).logs.length ≤ 100) := by
  decide

theorem appendOutputLine_length_le (logs : List String) (line : String) :
    (appendOutputLine logs line).length ≤ logs.length + 2 := by
  unfold appendOutputLine
  split_ifs <;> simp

theorem processOutputLine_length_le (logs : List String) (raw : String)
    (h : logs.length ≤ 100) : (processOutputLine logs raw).length ≤ 100 := by
  simp only [processOutputLine]
  split_ifs with hs htrim
  · exact h
  · simp only [List.length_drop]
    omega
  · have := appendOutputLine_length_le logs (pyStrip raw)
    omega

theorem logStep_preserves (st : LogState) (op : LogOp)
    (h : (st.running = true → st.logs.length ≤ 100) ∧ st.logs.length ≤ 101) :
    ((logStep st op).running = true → (logStep st op).logs.length ≤ 100) ∧
    (logStep st op).logs.length ≤ 101 := by
  cases op with
  | start script maxMb skip =>
    simp only [logStep]
    split_ifs with hr
    · exact h
    · refine ⟨fun _ => ?_, ?_⟩
      · show (startResetLogs ++ threadInitLogs script maxMb skip).length ≤ 100
        simp [startResetLogs, threadInitLogs]
      · show (startResetLogs ++ threadInitLogs script maxMb skip).length ≤ 101
        simp [startResetLogs, threadInitLogs]
  | out raw =>
    simp only [logStep]
    split_ifs with hr
    · have hb := processOutputLine_length_le st.logs raw (h.1 hr)
      refine ⟨fun _ => hb, ?_⟩
      show (processOutputLine st.logs raw).length ≤ 101
      omega
    · exact h
  | stop =>
    simp only [logStep]
    split_ifs with hr
    · have hlen := h.1 hr
      refine ⟨fun hfalse => by simp at hfalse, ?_⟩
      show (st.logs ++ ["🛑 Archiving stopped by user"]).length ≤ 101
      simp only [List.length_append, List.length_singleton]
      omega
    · exact h

/-- C9 (amended): under the operations of the claim — child-process output
lines, start, and stop — the log buffer always holds at most 101 entries:
trimming to the last 100 lines happens only inside the output-reading loop,
so it holds at most 100 entries whenever archiving is running, and the single
untrimmed stop append can raise it to 101; each processed output line keeps a
suffix of the appended list, i.e. the most recent entries. -/
theorem archiving_logs_amended :
    (∀ ops : List LogOp,
      ((runLogOps ops).running = true → (runLogOps ops).logs.length ≤ 100) ∧
      (runLogOps ops).logs.length ≤ 101) ∧
    (∀ (logs : List String) (raw : String), pyStrip raw ≠ "" →
      List.IsSuffix (processOutputLine logs raw)
        (appendOutputLine logs (pyStrip raw))) := by
  constructor
  · intro ops
    suffices hgen : ∀ (l : List LogOp) (st : LogState),
        ((st.running = true → st.logs.length ≤ 100) ∧ st.logs.length ≤ 101) →
        ((l.foldl logStep st).running = true →
          (l.foldl logStep st).logs.length ≤ 100) ∧
        (l.foldl logStep st).logs.length ≤ 101 by
      exact hgen ops initLogState ⟨fun _ => by simp [initLogState], by
        simp [initLogState]⟩
    intro l
    induction l with
    | nil => intro st h; exact h
    | cons op rest ih =>
      intro st h
      exact ih (logStep st op) (logStep_preserves st op h)
  · intro logs raw hne
    simp only [processOutputLine]
    rw [if_neg hne]
    split_ifs with h1
    · exact List.drop_suffix _ _
    · exact List.suffix_rfl

/-- Witness for C9 (amended) at concrete inputs: after a start the buffer
holds at most 100 entries while running and at most 101 overall, and a
processed nonempty output line keeps a suffix of the appended log. -/
theorem archiving_logs_amended_witness :
    (runLogOps [.start "run_archiver.py" 50 true]).logs.length ≤ 100 ∧
    (runLogOps [.start "run_archiver.py" 50 true]).logs.length ≤ 101 ∧
    List.IsSuffix (processOutputLine ["a"] "x")
      (appendOutputLine ["a"] (pyStrip "x")) :=
  ⟨(archiving_logs_amended.1 [.start "run_archiver.py" 50 true]).1 (by decide),
   (archiving_logs_amended.1 [.start "run_archiver.py" 50 true]).2,
   archiving_logs_amended.2 ["a"] "x" (by decide)⟩
